import Mathlib

/-!
Shallow embedding of the zond crate (operation-logging and flush-policy
engine).  Rust `Instant`s are modelled as `Nat` timestamps passed in
explicitly; `usize` counters as `Nat` with wraparound modulo `2 ^ 64`
where it matters; the pluggable consumer (`ZondHandler` / `ZondCollector`)
is modelled by returning each delivered batch, tagged with the instance
id, to the caller instead of invoking a callback.
-/

namespace Zond

/-- The modulus of Rust's `usize` on a 64-bit target. -/
def USIZE : Nat := 2 ^ 64

/-- `AtomicUsize::fetch_add(1, ...)` on the `ID_GENERATOR` static:
returns the old value and stores the wrapped successor. -/
def fetch_add (ctr : Nat) : Nat × Nat :=
  (ctr, (ctr + 1) % USIZE)

/-- Value of the id counter after `n` creations, starting from the static
initialiser `AtomicUsize::new(0)`. -/
def counterAfter : Nat → Nat
  | 0 => 0
  | n + 1 => (fetch_add (counterAfter n)).2

/-- The instance id handed out to the `n`-th (0-based) construction in the
process. -/
def nthId (n : Nat) : Nat := (fetch_add (counterAfter n)).1

/-- Rust's `std::num::NonZeroUsize`. -/
structure NonZeroUsize where
  val : Nat
  val_ne_zero : val ≠ 0

/-- `NonZeroUsize::new`: `None` exactly on zero. -/
def NonZeroUsize.new (n : Nat) : Option NonZeroUsize :=
  if h : n = 0 then none else some ⟨n, h⟩

/-- `Operation<T>`: a timestamped record of one operation. -/
structure Operation (T : Type) where
  instant : Nat
  operation_type : T
deriving DecidableEq

/-- `Operation::new`: wraps an operation kind with the current time. -/
def Operation.new (operation_type : T) (now : Nat) : Operation T :=
  { instant := now, operation_type := operation_type }

/-- `Operations<T>` type alias. -/
abbrev Operations (T : Type) := List (Operation T)

/-- One consumer invocation: the instance id together with the batch. -/
abbrev Delivery (T : Type) := Nat × Operations T

/-- The events carried by an optional delivery. -/
def eventsOf : Option (Delivery T) → Operations T
  | none => []
  | some d => d.2

/-- `PolicyInner` from policy.rs (the same three variants, with the same
fields, form the policy enum of zvec.rs). -/
inductive PolicyInner where
  | OnDropOnly : PolicyInner
  | OnCountOperations (max_operations : Nat) (current_operations : Nat) : PolicyInner
  | LessOften (duration : Nat) (last_collect : Nat) : PolicyInner
deriving DecidableEq

/-- `Policy`, the public wrapper around `PolicyInner`. -/
structure Policy where
  inner : PolicyInner
deriving DecidableEq

/-- `Policy::on_drop_only`. -/
def Policy.on_drop_only : Policy :=
  { inner := PolicyInner.OnDropOnly }

/-- `Policy::on_count_operations`: takes a `NonZeroUsize`, stores its value
as `max_operations` and starts the counter at 0. -/
def Policy.on_count_operations (max_operations : NonZeroUsize) : Policy :=
  { inner := PolicyInner.OnCountOperations max_operations.val 0 }

/-- `Policy::less_often`: stores the duration and initialises
`last_collect` to `Instant::now()`, i.e. the creation time `now`. -/
def Policy.less_often (duration : Nat) (now : Nat) : Policy :=
  { inner := PolicyInner.LessOften duration now }

/-- `Clone for PolicyInner`: parameters are copied verbatim, mutable state
is reset (`current_operations` to 0, `last_collect` to `Instant::now()`,
i.e. the cloning time `now`). -/
def PolicyInner.clone (p : PolicyInner) (now : Nat) : PolicyInner :=
  match p with
  | PolicyInner.OnDropOnly => PolicyInner.OnDropOnly
  | PolicyInner.OnCountOperations max_operations _ =>
      PolicyInner.OnCountOperations max_operations 0
  | PolicyInner.LessOften duration _ =>
      PolicyInner.LessOften duration now

/-- Derived `Clone for Policy`. -/
def Policy.clone (p : Policy) (now : Nat) : Policy :=
  { inner := p.inner.clone now }

/-- `ZondCollection<T>` from lib.rs.  The `zond.zond_handler` field is
modelled by returning deliveries; `zond.policy` is the `policy` field. -/
structure ZondCollection (T : Type) where
  id : Nat
  operations : Operations T
  policy : Policy

/-- `ZondCollection::new`: draws a fresh id from the shared counter. -/
def ZondCollection.new (policy : Policy) (ctr : Nat) :
    ZondCollection T × Nat :=
  ({ id := (fetch_add ctr).1, operations := [], policy := policy },
   (fetch_add ctr).2)

/-- `ZondCollection::handle`: swaps the buffer for an empty one and invokes
the handler with `(id, operations)` (the returned delivery). -/
def ZondCollection.handle (c : ZondCollection T) :
    ZondCollection T × Delivery T :=
  ({ c with operations := [] }, (c.id, c.operations))

/-- `ZondCollection::try_handle`: consults the policy, mutating its state,
and flushes when the policy fires.  `now` is `Instant::now()`;
`now - last_collect` is `duration_since` (saturating). -/
def ZondCollection.try_handle (c : ZondCollection T) (now : Nat) :
    ZondCollection T × Option (Delivery T) :=
  match c.policy.inner with
  | PolicyInner.OnCountOperations max_operations current_operations =>
      if max_operations - 1 = current_operations then
        let p1 : Policy := { inner := PolicyInner.OnCountOperations max_operations 0 }
        let c1 := { c with policy := p1 }
        (c1.handle.1, some c1.handle.2)
      else
        let p1 : Policy :=
          { inner := PolicyInner.OnCountOperations max_operations (current_operations + 1) }
        ({ c with policy := p1 }, none)
  | PolicyInner.LessOften duration last_collect =>
      if duration < now - last_collect then
        let p1 : Policy := { inner := PolicyInner.LessOften duration now }
        let c1 := { c with policy := p1 }
        (c1.handle.1, some c1.handle.2)
      else
        (c, none)
  | PolicyInner.OnDropOnly => (c, none)

/-- `ZondCollection::push_operation`: appends the timestamped event, then
consults the policy. -/
def ZondCollection.push_operation (c : ZondCollection T) (operation : T)
    (now : Nat) : ZondCollection T × Option (Delivery T) :=
  ZondCollection.try_handle
    { c with operations := c.operations ++ [Operation.new operation now] } now

/-- Record a whole sequence of timestamped operations, keeping the
per-step optional delivery. -/
def ZondCollection.run (c : ZondCollection T) :
    List (T × Nat) → ZondCollection T × List (Option (Delivery T))
  | [] => (c, [])
  | e :: es =>
      let s := c.push_operation e.1 e.2
      let r := s.1.run es
      (r.1, s.2 :: r.2)

/-- The consumer calls actually made, in order. -/
def deliveries (ds : List (Option (Delivery T))) : List (Delivery T) :=
  ds.filterMap id

/-- `Drop for ZondCollection`: one unconditional `handle`. -/
def ZondCollection.dropRun (c : ZondCollection T) : Delivery T :=
  c.handle.2

/-- All consumer calls over a `ZondCollection`'s lifetime: construction
with an empty buffer, a sequence of recorded operations, then drop. -/
def ZondCollection.lifecycle (policy : Policy) (id : Nat)
    (es : List (T × Nat)) : List (Delivery T) :=
  let c0 : ZondCollection T := { id := id, operations := [], policy := policy }
  let r := c0.run es
  deliveries r.2 ++ [r.1.dropRun]

/-- `std::ops::Bound<usize>` as captured in range-taking events. -/
inductive RBound (α : Type) where
  | Included (x : α) : RBound α
  | Excluded (x : α) : RBound α
  | Unbounded : RBound α
deriving DecidableEq

/-- `std::collections::TryReserveError` (its two kinds). -/
inductive TryReserveError where
  | CapacityOverflow : TryReserveError
  | AllocError : TryReserveError
deriving DecidableEq

/-- `ZVecOperation<T>` from zvec.rs: one variant per `ZVec` method, value
arguments stored as owned copies (`*mut T` pointers modelled as `Nat`). -/
inductive ZVecOperation (T : Type) where
  | New : ZVecOperation T
  | WithCapacity (capacity : Nat) : ZVecOperation T
  | FromRawParts (ptr : Nat) (length : Nat) (capacity : Nat) : ZVecOperation T
  | Capacity : ZVecOperation T
  | Reserve (additional : Nat) : ZVecOperation T
  | ReserveExact (additional : Nat) : ZVecOperation T
  | TryReserve (additional : Nat) : ZVecOperation T
  | TryReserveExact (additional : Nat) : ZVecOperation T
  | ShrinkToFit : ZVecOperation T
  | ShrinkTo (min_capacity : Nat) : ZVecOperation T
  | IntoBoxedSlice : ZVecOperation T
  | Truncate (len : Nat) : ZVecOperation T
  | AsSlice : ZVecOperation T
  | AsMutSlice : ZVecOperation T
  | AsPtr : ZVecOperation T
  | AsMutPtr : ZVecOperation T
  | SetLen (new_len : Nat) : ZVecOperation T
  | SwapRemove (index : Nat) : ZVecOperation T
  | Insert (index : Nat) (element : T) : ZVecOperation T
  | Remove (index : Nat) : ZVecOperation T
  | Retain : ZVecOperation T
  | RetainMut : ZVecOperation T
  | DedupByKey : ZVecOperation T
  | DedupBy : ZVecOperation T
  | Push (value : T) : ZVecOperation T
  | Pop : ZVecOperation T
  | Append (other : List T) : ZVecOperation T
  | Drain (start_bound : RBound Nat) (end_bound : RBound Nat) : ZVecOperation T
  | Clear : ZVecOperation T
  | Len : ZVecOperation T
  | IsEmpty : ZVecOperation T
  | SplitOff (at_ : Nat) : ZVecOperation T
  | ResizeWith (new_len : Nat) : ZVecOperation T
  | Leak : ZVecOperation T
  | SpareCapacityMut : ZVecOperation T
  | Resize (new_len : Nat) (value : T) : ZVecOperation T
  | ExtendFromSlice (other : List T) : ZVecOperation T
  | ExtendFromWithin (src_start_bound : RBound Nat) (src_end_bound : RBound Nat) :
      ZVecOperation T
  | Dedup : ZVecOperation T
  | Splice (start_bound : RBound Nat) (end_bound : RBound Nat) : ZVecOperation T
  | Deref : ZVecOperation T
  | Drop : ZVecOperation T
deriving DecidableEq

/-- `ZVec<T>` from zvec.rs: the wrapped `Vec` as a list, the metadata
buffer, and the policy (the `zond_collector` trait object is modelled by
returning deliveries). -/
structure ZVec (T : Type) where
  id : Nat
  inner : List T
  metadata : Operations (ZVecOperation T)
  policy : PolicyInner

/-- `ZVec::zond_collect`: swap out the metadata buffer and deliver it with
the instance id. -/
def ZVec.zond_collect (z : ZVec T) :
    ZVec T × Delivery (ZVecOperation T) :=
  ({ z with metadata := [] }, (z.id, z.metadata))

/-- `ZVec::try_zond_collect`: same policy consultation as
`ZondCollection::try_handle`. -/
def ZVec.try_zond_collect (z : ZVec T) (now : Nat) :
    ZVec T × Option (Delivery (ZVecOperation T)) :=
  match z.policy with
  | PolicyInner.OnCountOperations max_operations current_operations =>
      if max_operations - 1 = current_operations then
        let z1 := { z with policy := PolicyInner.OnCountOperations max_operations 0 }
        (z1.zond_collect.1, some z1.zond_collect.2)
      else
        ({ z with policy :=
            PolicyInner.OnCountOperations max_operations (current_operations + 1) },
         none)
  | PolicyInner.LessOften duration last_collect =>
      if duration < now - last_collect then
        let z1 := { z with policy := PolicyInner.LessOften duration now }
        (z1.zond_collect.1, some z1.zond_collect.2)
      else
        (z, none)
  | PolicyInner.OnDropOnly => (z, none)

/-- `ZVec::push_operation`: append the timestamped event, then consult the
policy. -/
def ZVec.push_operation (z : ZVec T) (operation : ZVecOperation T)
    (now : Nat) : ZVec T × Option (Delivery (ZVecOperation T)) :=
  ZVec.try_zond_collect
    { z with metadata := z.metadata ++ [Operation.new operation now] } now

/-- `Drop for ZVec`: record a `Drop` event through `push_operation` (so it
is consulted against the policy like any other event), then collect
unconditionally.  Returns the consumer calls made during destruction. -/
def ZVec.dropRun (z : ZVec T) (now : Nat) :
    List (Delivery (ZVecOperation T)) :=
  let s := z.push_operation ZVecOperation.Drop now
  s.2.toList ++ [s.1.zond_collect.2]

/-- `ZVec::new`: fresh empty vec, then records a `New` event. -/
def ZVec.new (policy : PolicyInner) (id : Nat) (now : Nat) :
    ZVec T × Option (Delivery (ZVecOperation T)) :=
  ZVec.push_operation
    { id := id, inner := [], metadata := [], policy := policy }
    ZVecOperation.New now

/-- `ZVec::with_capacity` (capacity has no effect on list contents). -/
def ZVec.with_capacity (capacity : Nat) (policy : PolicyInner) (id : Nat)
    (now : Nat) : ZVec T × Option (Delivery (ZVecOperation T)) :=
  ZVec.push_operation
    { id := id, inner := [], metadata := [], policy := policy }
    (ZVecOperation.WithCapacity capacity) now

/-- `ZVec::push`: records `Push { value: value.clone() }`, then pushes onto
the inner vec; returns unit. -/
def ZVec.push (z : ZVec T) (value : T) (now : Nat) :
    ZVec T × Option (Delivery (ZVecOperation T)) :=
  let s := z.push_operation (ZVecOperation.Push value) now
  ({ s.1 with inner := s.1.inner ++ [value] }, s.2)

/-- `ZVec::pop`: records `Pop`, then pops from the inner vec and returns
the popped element. -/
def ZVec.pop (z : ZVec T) (now : Nat) :
    ZVec T × Option (Delivery (ZVecOperation T)) × Option T :=
  let s := z.push_operation ZVecOperation.Pop now
  ({ s.1 with inner := s.1.inner.dropLast }, s.2, s.1.inner.getLast?)

/-- `ZVec::len`: records `Len`, then returns the inner length. -/
def ZVec.len (z : ZVec T) (now : Nat) :
    ZVec T × Option (Delivery (ZVecOperation T)) × Nat :=
  let s := z.push_operation ZVecOperation.Len now
  (s.1, s.2, s.1.inner.length)

/-- `ZVec::try_reserve`: records `TryReserve { additional }`, then performs
the fallible reservation; `alloc` is the allocator's verdict for this
request and is returned unchanged (reservation does not change contents). -/
def ZVec.try_reserve (z : ZVec T) (additional : Nat)
    (alloc : Except TryReserveError Unit) (now : Nat) :
    ZVec T × Option (Delivery (ZVecOperation T)) × Except TryReserveError Unit :=
  let s := z.push_operation (ZVecOperation.TryReserve additional) now
  (s.1, s.2, alloc)

/-- `ZVec::try_reserve_exact`: as `try_reserve` with its own event kind. -/
def ZVec.try_reserve_exact (z : ZVec T) (additional : Nat)
    (alloc : Except TryReserveError Unit) (now : Nat) :
    ZVec T × Option (Delivery (ZVecOperation T)) × Except TryReserveError Unit :=
  let s := z.push_operation (ZVecOperation.TryReserveExact additional) now
  (s.1, s.2, alloc)

/-- Start index denoted by a Rust range start bound. -/
def boundStart : RBound Nat → Nat
  | RBound.Included i => i
  | RBound.Excluded i => i + 1
  | RBound.Unbounded => 0

/-- Exclusive end index denoted by a Rust range end bound over a list of
length `len`. -/
def boundEnd (len : Nat) : RBound Nat → Nat
  | RBound.Included j => j + 1
  | RBound.Excluded j => j
  | RBound.Unbounded => len

/-- The sublist `l[s..e]` selected by a pair of range bounds. -/
def sliceRange (l : List T) (s e : RBound Nat) : List T :=
  (l.take (boundEnd l.length e)).drop (boundStart s)

/-- `ZVec::extend_from_within`: records the event with the cloned bounds,
then appends the selected range of the inner vec to itself. -/
def ZVec.extend_from_within (z : ZVec T) (s e : RBound Nat) (now : Nat) :
    ZVec T × Option (Delivery (ZVecOperation T)) :=
  let st := z.push_operation (ZVecOperation.ExtendFromWithin s e) now
  ({ st.1 with inner := st.1.inner ++ sliceRange st.1.inner s e }, st.2)

/-- `Vec::dedup` on the tail, keeping the first element of each run of
consecutive equal elements (`prev` is the last kept element). -/
def dedupFrom [DecidableEq T] (prev : T) : List T → List T
  | [] => []
  | b :: rest => if prev = b then dedupFrom prev rest else b :: dedupFrom b rest

/-- `Vec::dedup`: removes consecutive duplicates. -/
def dedupList [DecidableEq T] : List T → List T
  | [] => []
  | a :: rest => a :: dedupFrom a rest

/-- `ZVec::dedup`: records `Dedup`, then dedups the inner vec. -/
def ZVec.dedup [DecidableEq T] (z : ZVec T) (now : Nat) :
    ZVec T × Option (Delivery (ZVecOperation T)) :=
  let s := z.push_operation ZVecOperation.Dedup now
  ({ s.1 with inner := dedupList s.1.inner }, s.2)

/-- `ZVec::leak`: records `Leak`, evaluates `self.inner.to_vec().leak()`
(value-wise the inner list), then `self` goes out of scope and its `Drop`
impl runs.  Returns the consumer calls made and the leaked contents. -/
def ZVec.leak (z : ZVec T) (now : Nat) :
    List (Delivery (ZVecOperation T)) × List T :=
  let s := z.push_operation ZVecOperation.Leak now
  (s.2.toList ++ s.1.dropRun now, s.1.inner)

/-- Record a sequence of timestamped raw events on a `ZVec`, keeping the
per-step optional delivery (every public method funnels its event through
`push_operation`, which this iterates). -/
def ZVec.runOps (z : ZVec T) :
    List (ZVecOperation T × Nat) → ZVec T × List (Option (Delivery (ZVecOperation T)))
  | [] => (z, [])
  | e :: es =>
      let s := z.push_operation e.1 e.2
      let r := s.1.runOps es
      (r.1, s.2 :: r.2)

/-- All consumer calls over a `ZVec`'s lifetime: `ZVec::new` at time `t0`,
a sequence of recorded events, then drop at time `tdrop`. -/
def ZVec.zlifecycle (policy : PolicyInner) (id : Nat)
    (es : List (ZVecOperation T × Nat)) (t0 : Nat) (tdrop : Nat) :
    List (Delivery (ZVecOperation T)) :=
  let s := ZVec.new (T := T) policy id t0
  let r := s.1.runOps es
  deliveries (s.2 :: r.2) ++ r.1.dropRun tdrop

/-- All events delivered by a list of per-step optional deliveries. -/
def deliveredEvents (ds : List (Option (Delivery T))) : Operations T :=
  (ds.map eventsOf).flatten

theorem deliveries_cons (o : Option (Delivery T)) (ds : List (Option (Delivery T))) :
    deliveries (o :: ds) = o.toList ++ deliveries ds := by
  cases o <;> simp [deliveries]

theorem deliveredEvents_eq (ds : List (Option (Delivery T))) :
    ((deliveries ds).map Prod.snd).flatten = deliveredEvents ds := by
  induction ds with
  | nil => rfl
  | cons o ds ih =>
      cases o <;>
        simp [deliveries_cons, deliveredEvents, eventsOf, List.map_cons,
          List.flatten_cons] at ih ⊢ <;>
        exact ih

theorem ZondCollection.push_operation_spec (c : ZondCollection T) (op : T)
    (now : Nat) :
    eventsOf (c.push_operation op now).2 ++ (c.push_operation op now).1.operations
      = c.operations ++ [Operation.new op now]
    ∧ (c.push_operation op now).1.id = c.id
    ∧ (∀ d, (c.push_operation op now).2 = some d → d.1 = c.id) := by
  obtain ⟨cid, ops, ⟨pin⟩⟩ := c
  cases pin with
  | OnDropOnly =>
      simp [ZondCollection.push_operation, ZondCollection.try_handle, eventsOf]
  | OnCountOperations mx cur =>
      by_cases h : mx - 1 = cur <;>
        simp [ZondCollection.push_operation, ZondCollection.try_handle,
          ZondCollection.handle, eventsOf, h]
  | LessOften d l =>
      by_cases h : d < now - l <;>
        simp [ZondCollection.push_operation, ZondCollection.try_handle,
          ZondCollection.handle, eventsOf, h]

theorem ZondCollection.run_spec (es : List (T × Nat)) (c : ZondCollection T) :
    deliveredEvents (c.run es).2 ++ (c.run es).1.operations
      = c.operations ++ es.map (fun e => Operation.new e.1 e.2)
    ∧ (c.run es).1.id = c.id
    ∧ (∀ d ∈ deliveries (c.run es).2, d.1 = c.id) := by
  induction es generalizing c with
  | nil => simp [ZondCollection.run, deliveredEvents, deliveries]
  | cons e es ih =>
      obtain ⟨h1, h2, h3⟩ := ZondCollection.push_operation_spec c e.1 e.2
      obtain ⟨ih1, ih2, ih3⟩ := ih (c.push_operation e.1 e.2).1
      refine ⟨?_, ?_, ?_⟩
      · show deliveredEvents ((c.push_operation e.1 e.2).2
            :: ((c.push_operation e.1 e.2).1.run es).2)
          ++ ((c.push_operation e.1 e.2).1.run es).1.operations = _
        calc eventsOf (c.push_operation e.1 e.2).2
              ++ deliveredEvents ((c.push_operation e.1 e.2).1.run es).2
              ++ ((c.push_operation e.1 e.2).1.run es).1.operations
            = eventsOf (c.push_operation e.1 e.2).2
              ++ (deliveredEvents ((c.push_operation e.1 e.2).1.run es).2
                  ++ ((c.push_operation e.1 e.2).1.run es).1.operations) := by
              rw [List.append_assoc]
          _ = eventsOf (c.push_operation e.1 e.2).2
              ++ ((c.push_operation e.1 e.2).1.operations
                  ++ es.map (fun e => Operation.new e.1 e.2)) := by rw [ih1]
          _ = (eventsOf (c.push_operation e.1 e.2).2
                ++ (c.push_operation e.1 e.2).1.operations)
              ++ es.map (fun e => Operation.new e.1 e.2) := by
              rw [List.append_assoc]
          _ = (c.operations ++ [Operation.new e.1 e.2])
              ++ es.map (fun e => Operation.new e.1 e.2) := by rw [h1]
          _ = c.operations ++ (e :: es).map (fun e => Operation.new e.1 e.2) := by
              simp
      · show ((c.push_operation e.1 e.2).1.run es).1.id = c.id
        rw [ih2, h2]
      · intro d hd
        rw [show (c.run (e :: es)).2 = (c.push_operation e.1 e.2).2
              :: ((c.push_operation e.1 e.2).1.run es).2 from rfl,
          deliveries_cons] at hd
        rcases List.mem_append.mp hd with hmem | hmem
        · cases hs : (c.push_operation e.1 e.2).2 with
          | none => rw [hs] at hmem; simp at hmem
          | some d0 =>
              rw [hs] at hmem
              simp at hmem
              subst hmem
              exact h3 d hs
        · rw [show c.id = (c.push_operation e.1 e.2).1.id from h2.symm]
          exact ih3 d hmem

theorem ZVec.push_op_spec (z : ZVec T) (op : ZVecOperation T)
    (now : Nat) :
    eventsOf (z.push_operation op now).2 ++ (z.push_operation op now).1.metadata
      = z.metadata ++ [Operation.new op now]
    ∧ (z.push_operation op now).1.id = z.id
    ∧ (z.push_operation op now).1.inner = z.inner
    ∧ (∀ d, (z.push_operation op now).2 = some d → d.1 = z.id) := by
  obtain ⟨zid, inn, meta, pin⟩ := z
  cases pin with
  | OnDropOnly =>
      simp [ZVec.push_operation, ZVec.try_zond_collect, eventsOf]
  | OnCountOperations mx cur =>
      by_cases h : mx - 1 = cur <;>
        simp [ZVec.push_operation, ZVec.try_zond_collect, ZVec.zond_collect,
          eventsOf, h]
  | LessOften d l =>
      by_cases h : d < now - l <;>
        simp [ZVec.push_operation, ZVec.try_zond_collect, ZVec.zond_collect,
          eventsOf, h]

theorem ZVec.dropRun_spec (z : ZVec T) (now : Nat) :
    ((z.dropRun now).map Prod.snd).flatten
      = z.metadata ++ [Operation.new ZVecOperation.Drop now]
    ∧ (∀ d ∈ z.dropRun now, d.1 = z.id)
    ∧ (z.dropRun now).getLast?
        = some (z.id, (z.push_operation ZVecOperation.Drop now).1.metadata)
    ∧ 1 ≤ (z.dropRun now).length ∧ (z.dropRun now).length ≤ 2
    ∧ ((z.dropRun now).length = 2 →
        (z.dropRun now).getLast? = some (z.id, [])) := by
  obtain ⟨h1, h2, h3, h4⟩ := ZVec.push_op_spec z ZVecOperation.Drop now
  cases hs : (z.push_operation ZVecOperation.Drop now).2 with
  | none =>
      rw [hs] at h1
      simp only [eventsOf, List.nil_append] at h1
      refine ⟨?_, ?_, ?_, ?_, ?_, ?_⟩ <;>
        simp [ZVec.dropRun, hs, ZVec.zond_collect, h1, h2]
  | some d0 =>
      have hd0 : d0.1 = z.id := h4 d0 hs
      rw [hs] at h1
      simp only [eventsOf] at h1
      have hmeta : (z.push_operation ZVecOperation.Drop now).1.metadata = [] := by
        -- when the Drop event triggers a policy flush the buffer is empty after it
        obtain ⟨zid, inn, meta, pin⟩ := z
        cases pin with
        | OnDropOnly =>
            simp [ZVec.push_operation, ZVec.try_zond_collect] at hs
        | OnCountOperations mx cur =>
            by_cases h : mx - 1 = cur <;>
              simp [ZVec.push_operation, ZVec.try_zond_collect,
                ZVec.zond_collect, h] at hs ⊢ <;>
              simp [ZVec.push_operation, ZVec.try_zond_collect,
                ZVec.zond_collect, h]
        | LessOften d l =>
            by_cases h : d < now - l <;>
              simp [ZVec.push_operation, ZVec.try_zond_collect,
                ZVec.zond_collect, h] at hs ⊢ <;>
              simp [ZVec.push_operation, ZVec.try_zond_collect,
                ZVec.zond_collect, h]
      refine ⟨?_, ?_, ?_, ?_, ?_, ?_⟩ <;>
        simp [ZVec.dropRun, hs, ZVec.zond_collect, hmeta, h2, hd0] <;>
        simp [hmeta] at h1 <;> simp [h1]

theorem ZVec.runOps_spec (es : List (ZVecOperation T × Nat)) (z : ZVec T) :
    deliveredEvents (z.runOps es).2 ++ (z.runOps es).1.metadata
      = z.metadata ++ es.map (fun e => Operation.new e.1 e.2)
    ∧ (z.runOps es).1.id = z.id
    ∧ (∀ d ∈ deliveries (z.runOps es).2, d.1 = z.id) := by
  induction es generalizing z with
  | nil => simp [ZVec.runOps, deliveredEvents, deliveries]
  | cons e es ih =>
      obtain ⟨h1, h2, h3, h4⟩ := ZVec.push_op_spec z e.1 e.2
      obtain ⟨ih1, ih2, ih3⟩ := ih (z.push_operation e.1 e.2).1
      refine ⟨?_, ?_, ?_⟩
      · show deliveredEvents ((z.push_operation e.1 e.2).2
            :: ((z.push_operation e.1 e.2).1.runOps es).2)
          ++ ((z.push_operation e.1 e.2).1.runOps es).1.metadata = _
        calc eventsOf (z.push_operation e.1 e.2).2
              ++ deliveredEvents ((z.push_operation e.1 e.2).1.runOps es).2
              ++ ((z.push_operation e.1 e.2).1.runOps es).1.metadata
            = eventsOf (z.push_operation e.1 e.2).2
              ++ (deliveredEvents ((z.push_operation e.1 e.2).1.runOps es).2
                  ++ ((z.push_operation e.1 e.2).1.runOps es).1.metadata) := by
              rw [List.append_assoc]
          _ = eventsOf (z.push_operation e.1 e.2).2
              ++ ((z.push_operation e.1 e.2).1.metadata
                  ++ es.map (fun e => Operation.new e.1 e.2)) := by rw [ih1]
          _ = (eventsOf (z.push_operation e.1 e.2).2
                ++ (z.push_operation e.1 e.2).1.metadata)
              ++ es.map (fun e => Operation.new e.1 e.2) := by
              rw [List.append_assoc]
          _ = (z.metadata ++ [Operation.new e.1 e.2])
              ++ es.map (fun e => Operation.new e.1 e.2) := by rw [h1]
          _ = z.metadata ++ (e :: es).map (fun e => Operation.new e.1 e.2) := by
              simp
      · show ((z.push_operation e.1 e.2).1.runOps es).1.id = z.id
        rw [ih2, h2]
      · intro d hd
        rw [show (z.runOps (e :: es)).2 = (z.push_operation e.1 e.2).2
              :: ((z.push_operation e.1 e.2).1.runOps es).2 from rfl,
          deliveries_cons] at hd
        rcases List.mem_append.mp hd with hmem | hmem
        · cases hs : (z.push_operation e.1 e.2).2 with
          | none => rw [hs] at hmem; simp at hmem
          | some d0 =>
              rw [hs] at hmem
              simp at hmem
              subst hmem
              exact h4 d hs
        · rw [show z.id = (z.push_operation e.1 e.2).1.id from h2.symm]
          exact ih3 d hmem

theorem ZondCollection.lifecycle_spec (T : Type) (p : Policy) (id : Nat)
    (es : List (T × Nat)) :
    ((ZondCollection.lifecycle (T := T) p id es).map Prod.snd).flatten
      = es.map (fun e => Operation.new e.1 e.2)
    ∧ ZondCollection.lifecycle (T := T) p id es
      = deliveries (ZondCollection.run
            { id := id, operations := [], policy := p } es).2
        ++ [(id, (ZondCollection.run
            { id := id, operations := [], policy := p } es).1.operations)]
    ∧ (∀ d ∈ ZondCollection.lifecycle (T := T) p id es, d.1 = id) := by
  obtain ⟨h1, h2, h3⟩ := ZondCollection.run_spec es
    { id := id, operations := [], policy := p }
  have hlc : ZondCollection.lifecycle (T := T) p id es
      = deliveries (ZondCollection.run
            { id := id, operations := [], policy := p } es).2
        ++ [(id, (ZondCollection.run
            { id := id, operations := [], policy := p } es).1.operations)] := by
    simp only [ZondCollection.lifecycle, ZondCollection.dropRun,
      ZondCollection.handle]
    rw [h2]
  refine ⟨?_, hlc, ?_⟩
  · rw [hlc]
    simp only [List.map_append, List.flatten_append, List.map_cons,
      List.map_nil, List.flatten_cons, List.flatten_nil, List.append_nil]
    rw [deliveredEvents_eq]
    simpa using h1
  · intro d hd
    rw [hlc] at hd
    rcases List.mem_append.mp hd with hmem | hmem
    · exact h3 d hmem
    · simp at hmem
      rw [hmem]

/-- Claim C3: for every policy and every sequence of recorded operations,
the concatenation of all batches delivered for the instance equals the
recorded events in order, the lifecycle ends with one trailing teardown
batch holding exactly the still-buffered events, every delivery carries
the instance id, and every flush leaves the buffer empty. -/
theorem claim_C3_ordering (T : Type) (p : Policy) (id : Nat)
    (es : List (T × Nat)) :
    ((ZondCollection.lifecycle (T := T) p id es).map Prod.snd).flatten
      = es.map (fun e => Operation.new e.1 e.2)
    ∧ ZondCollection.lifecycle (T := T) p id es
      = deliveries (ZondCollection.run
            { id := id, operations := [], policy := p } es).2
        ++ [(id, (ZondCollection.run
            { id := id, operations := [], policy := p } es).1.operations)]
    ∧ (∀ d ∈ ZondCollection.lifecycle (T := T) p id es, d.1 = id)
    ∧ (∀ c : ZondCollection T, c.handle.1.operations = []) := by
  obtain ⟨h1, h2, h3⟩ := ZondCollection.lifecycle_spec T p id es
  exact ⟨h1, h2, h3, fun c => rfl⟩

/-- Witness for claim C3 at a concrete input: with `DropOnly` and one
recorded event, the single (teardown) delivery carries the instance id. -/
theorem claim_C3_ordering_witness :
    ((9 : Nat), [Operation.new (5 : Nat) 0]).1 = 9 :=
  (claim_C3_ordering Nat Policy.on_drop_only 9 [(5, 0)]).2.2.1
    (9, [Operation.new 5 0]) (by decide)

/-- Claim C2: destruction always performs exactly one unconditional final
flush: a `ZondCollection` drop delivers the whole buffer (possibly empty)
once; the lifecycle is the policy deliveries followed by exactly one
trailing teardown delivery (present even when nothing was recorded); a
`ZVec` drop makes one or two consumer calls, the last of which is the
unconditional teardown call carrying the instance id, and when the `Drop`
event has itself triggered a policy flush that final call delivers an
empty batch. -/
theorem claim_C2_teardown (T : Type) (p : Policy) (id : Nat)
    (es : List (T × Nat)) (z : ZVec T) (now : Nat) :
    (∀ c : ZondCollection T, c.dropRun = (c.id, c.operations))
    ∧ ZondCollection.lifecycle (T := T) p id es
        = deliveries (ZondCollection.run
              { id := id, operations := [], policy := p } es).2
          ++ [(id, (ZondCollection.run
              { id := id, operations := [], policy := p } es).1.operations)]
    ∧ ZondCollection.lifecycle (T := T) p id [] = [(id, [])]
    ∧ 1 ≤ (z.dropRun now).length ∧ (z.dropRun now).length ≤ 2
    ∧ (z.dropRun now).getLast?
        = some (z.id, (z.push_operation ZVecOperation.Drop now).1.metadata)
    ∧ ((z.dropRun now).length = 2 →
        (z.dropRun now).getLast? = some (z.id, [])) := by
  obtain ⟨d1, d2, d3, d4, d5, d6⟩ := ZVec.dropRun_spec z now
  refine ⟨fun c => rfl, (ZondCollection.lifecycle_spec T p id es).2.1, ?_, d4,
    d5, d3, d6⟩
  simp [ZondCollection.lifecycle, ZondCollection.run, ZondCollection.dropRun,
    ZondCollection.handle, deliveries]

/-- Witness for claim C2 at a concrete instance: a `ZVec` whose
`CountThreshold(1)` policy fires on the `Drop` event makes two consumer
calls during destruction, and the final one delivers an empty batch. -/
theorem claim_C2_teardown_witness :
    (ZVec.dropRun (T := Nat)
        ⟨0, [], [], PolicyInner.OnCountOperations 1 0⟩ 5).getLast?
      = some (0, []) :=
  (claim_C2_teardown Nat Policy.on_drop_only 0 []
    ⟨0, [], [], PolicyInner.OnCountOperations 1 0⟩ 5).2.2.2.2.2.2 (by decide)

/-- Claim C10: every `ZVec` destruction records a `Drop` event (appended
to the buffer and consulted against the policy like any other event)
before the unconditional final flush: over a whole lifetime the delivered
event stream is the `New` event, the recorded events, then the `Drop`
event; its last element is the `Drop` event and it is never empty. -/
theorem claim_C10_drop_event (T : Type) (p : PolicyInner) (id : Nat)
    (es : List (ZVecOperation T × Nat)) (t0 tdrop : Nat) :
    ((ZVec.zlifecycle (T := T) p id es t0 tdrop).map Prod.snd).flatten
      = Operation.new ZVecOperation.New t0
          :: (es.map (fun e => Operation.new e.1 e.2)
              ++ [Operation.new ZVecOperation.Drop tdrop])
    ∧ ((ZVec.zlifecycle (T := T) p id es t0 tdrop).map Prod.snd).flatten.getLast?
        = some (Operation.new ZVecOperation.Drop tdrop)
    ∧ ((ZVec.zlifecycle (T := T) p id es t0 tdrop).map Prod.snd).flatten ≠ []
    ∧ (∀ (w : ZVec T) (t : Nat), ((w.dropRun t).map Prod.snd).flatten
        = w.metadata ++ [Operation.new ZVecOperation.Drop t]) := by
  have hflat : ((ZVec.zlifecycle (T := T) p id es t0 tdrop).map Prod.snd).flatten
      = Operation.new ZVecOperation.New t0
          :: (es.map (fun e => Operation.new e.1 e.2)
              ++ [Operation.new ZVecOperation.Drop tdrop]) := by
    obtain ⟨n1, n2, n3, n4⟩ := ZVec.push_op_spec
      { id := id, inner := [], metadata := [], policy := p } (T := T)
      ZVecOperation.New t0
    obtain ⟨r1, r2, r3⟩ := ZVec.runOps_spec es
      (ZVec.new (T := T) p id t0).1
    obtain ⟨q1, q2, q3, q4, q5, q6⟩ := ZVec.dropRun_spec
      ((ZVec.new (T := T) p id t0).1.runOps es).1 tdrop
    simp only [ZVec.zlifecycle, List.map_append, List.flatten_append]
    rw [deliveredEvents_eq, q1]
    show eventsOf (ZVec.new (T := T) p id t0).2
        ++ deliveredEvents ((ZVec.new (T := T) p id t0).1.runOps es).2
        ++ _ = _
    simp only [List.nil_append] at n1
    calc eventsOf (ZVec.new (T := T) p id t0).2
          ++ deliveredEvents ((ZVec.new (T := T) p id t0).1.runOps es).2
          ++ (((ZVec.new (T := T) p id t0).1.runOps es).1.metadata
              ++ [Operation.new ZVecOperation.Drop tdrop])
        = eventsOf (ZVec.new (T := T) p id t0).2
          ++ ((deliveredEvents ((ZVec.new (T := T) p id t0).1.runOps es).2
              ++ ((ZVec.new (T := T) p id t0).1.runOps es).1.metadata)
              ++ [Operation.new ZVecOperation.Drop tdrop]) := by
          simp [List.append_assoc]
      _ = eventsOf (ZVec.new (T := T) p id t0).2
          ++ (((ZVec.new (T := T) p id t0).1.metadata
              ++ es.map (fun e => Operation.new e.1 e.2))
              ++ [Operation.new ZVecOperation.Drop tdrop]) := by
          rw [r1]
      _ = (eventsOf (ZVec.new (T := T) p id t0).2
            ++ (ZVec.new (T := T) p id t0).1.metadata)
          ++ (es.map (fun e => Operation.new e.1 e.2)
              ++ [Operation.new ZVecOperation.Drop tdrop]) := by
          simp [List.append_assoc]
      _ = [Operation.new ZVecOperation.New t0]
          ++ (es.map (fun e => Operation.new e.1 e.2)
              ++ [Operation.new ZVecOperation.Drop tdrop]) := by
          rw [show eventsOf (ZVec.new (T := T) p id t0).2
              ++ (ZVec.new (T := T) p id t0).1.metadata
              = [Operation.new ZVecOperation.New t0] from n1]
      _ = Operation.new ZVecOperation.New t0
          :: (es.map (fun e => Operation.new e.1 e.2)
              ++ [Operation.new ZVecOperation.Drop tdrop]) := by simp
  refine ⟨hflat, ?_, ?_, ?_⟩
  · rw [hflat, show Operation.new (T := ZVecOperation T) ZVecOperation.New t0
        :: (es.map (fun e => Operation.new e.1 e.2)
            ++ [Operation.new ZVecOperation.Drop tdrop])
        = (Operation.new ZVecOperation.New t0
            :: es.map (fun e => Operation.new e.1 e.2))
          ++ [Operation.new ZVecOperation.Drop tdrop] from by simp]
    exact List.getLast?_concat _
  · rw [hflat]; simp
  · intro w t
    exact (ZVec.dropRun_spec w t).1

/-- Witness for claim C10 at a concrete input: a `DropOnly` lifetime with
no recorded operations still delivers a nonempty event stream. -/
theorem claim_C10_drop_event_witness :
    ((ZVec.zlifecycle (T := Nat) PolicyInner.OnDropOnly 3 [] 0 1).map
        Prod.snd).flatten ≠ [] :=
  (claim_C10_drop_event Nat PolicyInner.OnDropOnly 3 [] 0 1).2.2.1

/-- Claim C5: each wrapped method records an event built from owned copies
of its arguments (the event survives every flush: delivered events plus
the remaining buffer always account for it), then performs the operation
on the underlying vec, and returns the underlying result unchanged; in
particular `try_reserve` / `try_reserve_exact` propagate the allocator's
verdict unchanged while the attempt event stays recorded, and `leak`
returns the vec's contents. -/
theorem claim_C5_wrapper (T : Type) [DecidableEq T] (z : ZVec T) (v : T)
    (additional : Nat) (alloc : Except TryReserveError Unit) (now : Nat) :
    ((z.push v now).1.inner = z.inner ++ [v]
      ∧ eventsOf (z.push v now).2 ++ (z.push v now).1.metadata
          = z.metadata ++ [Operation.new (ZVecOperation.Push v) now])
    ∧ ((z.pop now).2.2 = z.inner.getLast?
      ∧ (z.pop now).1.inner = z.inner.dropLast
      ∧ eventsOf (z.pop now).2.1 ++ (z.pop now).1.metadata
          = z.metadata ++ [Operation.new ZVecOperation.Pop now])
    ∧ ((z.len now).2.2 = z.inner.length
      ∧ (z.len now).1.inner = z.inner
      ∧ eventsOf (z.len now).2.1 ++ (z.len now).1.metadata
          = z.metadata ++ [Operation.new ZVecOperation.Len now])
    ∧ ((z.try_reserve additional alloc now).2.2 = alloc
      ∧ (z.try_reserve additional alloc now).1.inner = z.inner
      ∧ eventsOf (z.try_reserve additional alloc now).2.1
          ++ (z.try_reserve additional alloc now).1.metadata
          = z.metadata ++ [Operation.new (ZVecOperation.TryReserve additional) now])
    ∧ ((z.try_reserve_exact additional alloc now).2.2 = alloc
      ∧ eventsOf (z.try_reserve_exact additional alloc now).2.1
          ++ (z.try_reserve_exact additional alloc now).1.metadata
          = z.metadata
            ++ [Operation.new (ZVecOperation.TryReserveExact additional) now])
    ∧ ((z.dedup now).1.inner = dedupList z.inner
      ∧ eventsOf (z.dedup now).2 ++ (z.dedup now).1.metadata
          = z.metadata ++ [Operation.new ZVecOperation.Dedup now])
    ∧ ((z.leak now).2 = z.inner
      ∧ ((z.leak now).1.map Prod.snd).flatten
          = z.metadata ++ [Operation.new ZVecOperation.Leak now,
              Operation.new ZVecOperation.Drop now]) := by
  refine ⟨⟨?_, ?_⟩, ⟨?_, ?_, ?_⟩, ⟨?_, ?_, ?_⟩, ⟨?_, ?_, ?_⟩, ⟨?_, ?_⟩,
    ⟨?_, ?_⟩, ⟨?_, ?_⟩⟩
  · rw [show (z.push v now).1.inner
        = (z.push_operation (ZVecOperation.Push v) now).1.inner ++ [v] from rfl,
      (ZVec.push_op_spec z (ZVecOperation.Push v) now).2.2.1]
  · exact (ZVec.push_op_spec z (ZVecOperation.Push v) now).1
  · rw [show (z.pop now).2.2
        = (z.push_operation ZVecOperation.Pop now).1.inner.getLast? from rfl,
      (ZVec.push_op_spec z ZVecOperation.Pop now).2.2.1]
  · rw [show (z.pop now).1.inner
        = (z.push_operation ZVecOperation.Pop now).1.inner.dropLast from rfl,
      (ZVec.push_op_spec z ZVecOperation.Pop now).2.2.1]
  · exact (ZVec.push_op_spec z ZVecOperation.Pop now).1
  · rw [show (z.len now).2.2
        = (z.push_operation ZVecOperation.Len now).1.inner.length from rfl,
      (ZVec.push_op_spec z ZVecOperation.Len now).2.2.1]
  · exact (ZVec.push_op_spec z ZVecOperation.Len now).2.2.1
  · exact (ZVec.push_op_spec z ZVecOperation.Len now).1
  · rfl
  · exact (ZVec.push_op_spec z
      (ZVecOperation.TryReserve additional) now).2.2.1
  · exact (ZVec.push_op_spec z
      (ZVecOperation.TryReserve additional) now).1
  · rfl
  · exact (ZVec.push_op_spec z
      (ZVecOperation.TryReserveExact additional) now).1
  · rw [show (z.dedup now).1.inner
        = dedupList (z.push_operation ZVecOperation.Dedup now).1.inner from rfl,
      (ZVec.push_op_spec z ZVecOperation.Dedup now).2.2.1]
  · exact (ZVec.push_op_spec z ZVecOperation.Dedup now).1
  · rw [show (z.leak now).2
        = (z.push_operation ZVecOperation.Leak now).1.inner from rfl,
      (ZVec.push_op_spec z ZVecOperation.Leak now).2.2.1]
  · obtain ⟨l1, l2, l3, l4⟩ := ZVec.push_op_spec z ZVecOperation.Leak now
    have hd := (ZVec.dropRun_spec
      (z.push_operation ZVecOperation.Leak now).1 now).1
    show (((z.push_operation ZVecOperation.Leak now).2.toList
        ++ (z.push_operation ZVecOperation.Leak now).1.dropRun now).map
          Prod.snd).flatten = _
    rw [List.map_append, List.flatten_append, hd]
    cases hs : (z.push_operation ZVecOperation.Leak now).2 with
    | none =>
        rw [hs] at l1
        simp only [eventsOf, List.nil_append] at l1
        simp [l1]
    | some d0 =>
        rw [hs] at l1
        simp only [eventsOf] at l1
        simp only [Option.toList_some, List.map_cons, List.map_nil,
          List.flatten_cons, List.flatten_nil, List.append_nil]
        rw [← List.append_assoc, l1]
        simp

/-- Claim C4: under the `LessOften` (Debounced) policy an event at elapsed
time `now - last_collect ≤ duration` never flushes and leaves
`last_collect` untouched; an event at elapsed time strictly greater than
`duration` flushes the whole buffer (including that event) and resets
`last_collect` to the current time; and `Policy::less_often` initialises
`last_collect` to the creation instant. -/
theorem claim_C4_debounced (T : Type) (c : ZondCollection T)
    (duration last_collect : Nat) (op : T) (now : Nat)
    (hp : c.policy = { inner := PolicyInner.LessOften duration last_collect }) :
    (now - last_collect ≤ duration →
        (c.push_operation op now).2 = none
        ∧ (c.push_operation op now).1.policy
            = { inner := PolicyInner.LessOften duration last_collect }
        ∧ (c.push_operation op now).1.operations
            = c.operations ++ [Operation.new op now])
    ∧ (duration < now - last_collect →
        (c.push_operation op now).2
            = some (c.id, c.operations ++ [Operation.new op now])
        ∧ (c.push_operation op now).1.policy
            = { inner := PolicyInner.LessOften duration now }
        ∧ (c.push_operation op now).1.operations = [])
    ∧ (∀ d t : Nat, Policy.less_often d t
        = { inner := PolicyInner.LessOften d t }) := by
  obtain ⟨cid, ops, pol⟩ := c
  cases hp
  constructor
  · intro hle
    have hnot : ¬ duration < now - last_collect := Nat.not_lt.mpr hle
    refine ⟨?_, ?_, ?_⟩ <;>
      simp [ZondCollection.push_operation, ZondCollection.try_handle, hnot]
  constructor
  · intro hlt
    refine ⟨?_, ?_, ?_⟩ <;>
      simp [ZondCollection.push_operation, ZondCollection.try_handle,
        ZondCollection.handle, hlt]
  · intro d t
    rfl

/-- Witness for claim C4: with `duration = 10`, `last_collect = 0`, an
event at `now = 10` (elapsed exactly the duration) does not flush, and an
event at `now = 11` flushes and resets the timer to 11. -/
theorem claim_C4_debounced_witness :
    ((10 : Nat) - 0 ≤ 10
      ∧ (ZondCollection.push_operation (T := Nat)
          ⟨7, [], ⟨PolicyInner.LessOften 10 0⟩⟩ 3 10).2 = none)
    ∧ ((10 : Nat) < 11 - 0
      ∧ (ZondCollection.push_operation (T := Nat)
          ⟨7, [], ⟨PolicyInner.LessOften 10 0⟩⟩ 3 11).2
        = some (7, [Operation.new 3 11])
      ∧ (ZondCollection.push_operation (T := Nat)
          ⟨7, [], ⟨PolicyInner.LessOften 10 0⟩⟩ 3 11).1.policy
        = { inner := PolicyInner.LessOften 10 11 }) := by
  have h10 := claim_C4_debounced Nat ⟨7, [], ⟨PolicyInner.LessOften 10 0⟩⟩
    10 0 3 10 rfl
  have h11 := claim_C4_debounced Nat ⟨7, [], ⟨PolicyInner.LessOften 10 0⟩⟩
    10 0 3 11 rfl
  refine ⟨⟨by decide, (h10.1 (by decide)).1⟩,
    ⟨by decide, ?_, (h11.2.1 (by decide)).2.1⟩⟩
  have := (h11.2.1 (by decide)).1
  simpa using this

/-- Claim C7: instance identifiers are drawn from one shared wrapping
`usize` counter starting at 0: the id of the `n`-th construction is
`n % 2^64`, so within the first `2^64` constructions of a process ids are
strictly monotone and pairwise distinct, and `ZondCollection::new` assigns
the current counter value and advances the counter. -/
theorem claim_C7_unique_ids :
    (∀ n : Nat, nthId n = n % USIZE)
    ∧ (∀ i j : Nat, i < j → j < USIZE → nthId i ≠ nthId j)
    ∧ (∀ i j : Nat, i ≤ j → j < USIZE → nthId i ≤ nthId j)
    ∧ (∀ (p : Policy) (ctr : Nat),
        (ZondCollection.new (T := Unit) p ctr).1.id = ctr
        ∧ (ZondCollection.new (T := Unit) p ctr).2 = (ctr + 1) % USIZE) := by
  have hmod : ∀ n : Nat, nthId n = n % USIZE := by
    intro n
    induction n with
    | zero =>
        simp [nthId, counterAfter, fetch_add]
    | succ n ih =>
        show counterAfter (n + 1) = (n + 1) % USIZE
        show (fetch_add (counterAfter n)).2 = (n + 1) % USIZE
        rw [show (fetch_add (counterAfter n)).2
            = (counterAfter n + 1) % USIZE from rfl]
        rw [show counterAfter n = nthId n from rfl, ih, Nat.mod_add_mod]
  refine ⟨hmod, ?_, ?_, fun p ctr => ⟨rfl, rfl⟩⟩
  · intro i j hij hj
    rw [hmod i, hmod j, Nat.mod_eq_of_lt (lt_trans hij hj), Nat.mod_eq_of_lt hj]
    omega
  · intro i j hij hj
    rw [hmod i, hmod j, Nat.mod_eq_of_lt (lt_of_le_of_lt hij hj),
      Nat.mod_eq_of_lt hj]
    exact hij

/-- Witness for claim C7: the ids of the 3rd and 5th constructions differ. -/
theorem claim_C7_unique_ids_witness : nthId 2 ≠ nthId 4 :=
  claim_C7_unique_ids.2.1 2 4 (by decide)
    (by norm_num [USIZE])

/-- Claim C8: a zero threshold is rejected at `NonZeroUsize` construction
(`NonZeroUsize::new 0 = none`), a nonzero threshold is accepted verbatim
(no clamping), and every constructed `CountThreshold` policy carries a
positive `max_operations` with its counter at 0. -/
theorem claim_C8_nonzero_threshold (n : Nat) :
    NonZeroUsize.new 0 = none
    ∧ (n ≠ 0 → ∃ m : NonZeroUsize, NonZeroUsize.new n = some m ∧ m.val = n)
    ∧ (∀ m : NonZeroUsize,
        (Policy.on_count_operations m).inner
          = PolicyInner.OnCountOperations m.val 0
        ∧ 0 < m.val) := by
  refine ⟨rfl, ?_, ?_⟩
  · intro hn
    exact ⟨⟨n, hn⟩, by simp [NonZeroUsize.new, hn], rfl⟩
  · intro m
    exact ⟨rfl, Nat.pos_of_ne_zero m.val_ne_zero⟩

/-- Witness for claim C8: threshold 3 is accepted with max exactly 3. -/
theorem claim_C8_nonzero_threshold_witness :
    ∃ m : NonZeroUsize, NonZeroUsize.new 3 = some m ∧ m.val = 3 :=
  (claim_C8_nonzero_threshold 3).2.1 (by decide)

/-- Claim C9: cloning a policy copies `max_operations` / `duration`
verbatim and resets the mutable state to fresh initial values,
independently of the original's state: a `CountThreshold` clone has its
counter at 0 (equal to a freshly constructed policy with the same max), a
`LessOften` clone has `last_collect` set to the cloning time, and a
`DropOnly` clone is `DropOnly`. -/
theorem claim_C9_clone_resets (max_operations current_operations : Nat)
    (duration last_collect now : Nat) (m : NonZeroUsize) :
    PolicyInner.clone
        (PolicyInner.OnCountOperations max_operations current_operations) now
      = PolicyInner.OnCountOperations max_operations 0
    ∧ PolicyInner.clone (PolicyInner.LessOften duration last_collect) now
      = PolicyInner.LessOften duration now
    ∧ PolicyInner.clone PolicyInner.OnDropOnly now = PolicyInner.OnDropOnly
    ∧ (Policy.on_count_operations m).clone now = Policy.on_count_operations m
    ∧ (Policy.less_often duration last_collect).clone now
      = Policy.less_often duration now
    ∧ Policy.on_drop_only.clone now = Policy.on_drop_only :=
  ⟨rfl, rfl, rfl, rfl, rfl, rfl⟩

theorem ZondCollection.push_count_step (c : ZondCollection T) (k m : Nat)
    (op : T) (now : Nat)
    (hp : c.policy = { inner := PolicyInner.OnCountOperations k m }) :
    (k - 1 = m →
      (c.push_operation op now).2
          = some (c.id, c.operations ++ [Operation.new op now])
      ∧ (c.push_operation op now).1
          = { id := c.id, operations := [],
              policy := { inner := PolicyInner.OnCountOperations k 0 } })
    ∧ (k - 1 ≠ m →
      (c.push_operation op now).2 = none
      ∧ (c.push_operation op now).1
          = { id := c.id, operations := c.operations ++ [Operation.new op now],
              policy := { inner :=
                PolicyInner.OnCountOperations k (m + 1) } }) := by
  obtain ⟨cid, ops, pol⟩ := c
  cases hp
  constructor
  · intro h
    constructor <;>
      simp [ZondCollection.push_operation, ZondCollection.try_handle,
        ZondCollection.handle, h]
  · intro h
    constructor <;>
      simp [ZondCollection.push_operation, ZondCollection.try_handle, h]

theorem ZondCollection.run_count (k : Nat) (hk : 0 < k) (es : List (T × Nat))
    (c : ZondCollection T) (m : Nat)
    (hp : c.policy = { inner := PolicyInner.OnCountOperations k m })
    (hm : m = c.operations.length) (hlt : m < k) :
    ((c.run es).2.map Option.isSome
        = (List.range es.length).map (fun i => decide ((m + i + 1) % k = 0)))
    ∧ (∀ d ∈ deliveries (c.run es).2, d.2.length = k)
    ∧ (deliveries (c.run es).2).length = (m + es.length) / k
    ∧ (c.run es).1.policy
        = { inner := PolicyInner.OnCountOperations k ((m + es.length) % k) }
    ∧ (c.run es).1.operations.length = (m + es.length) % k := by
  induction es generalizing c m with
  | nil =>
      refine ⟨by simp [ZondCollection.run],
        by simp [ZondCollection.run, deliveries], ?_, ?_, ?_⟩
      · simp [ZondCollection.run, deliveries, Nat.div_eq_of_lt hlt]
      · simp [ZondCollection.run, hp, Nat.mod_eq_of_lt hlt]
      · simp [ZondCollection.run, Nat.mod_eq_of_lt hlt, hm.symm]
  | cons e es ih =>
      have hrun2 : (c.run (e :: es)).2
          = (c.push_operation e.1 e.2).2
            :: ((c.push_operation e.1 e.2).1.run es).2 := rfl
      have hrun1 : (c.run (e :: es)).1
          = ((c.push_operation e.1 e.2).1.run es).1 := rfl
      have hstepfact := ZondCollection.push_count_step c k m e.1 e.2 hp
      by_cases hcond : k - 1 = m
      · obtain ⟨hs2, hs1⟩ := hstepfact.1 hcond
        have hm1 : m + 1 = k := by omega
        obtain ⟨ih1, ih2, ih3, ih4, ih5⟩ :=
          ih (c.push_operation e.1 e.2).1 0 (by rw [hs1])
            (by rw [hs1] <;> rfl) hk
        refine ⟨?_, ?_, ?_, ?_, ?_⟩
        · rw [hrun2, List.map_cons, hs2]
          simp only [List.length_cons]
          rw [List.range_succ_eq_map, List.map_cons, List.map_map, ih1]
          have harg : ∀ i : Nat, (0 + i + 1) % k = (m + Nat.succ i + 1) % k := by
            intro i
            have h1 : m + Nat.succ i + 1 = k + (i + 1) := by omega
            have h2 : 0 + i + 1 = i + 1 := by omega
            rw [h1, h2, Nat.add_mod_left]
          have hhead : (decide ((m + 0 + 1) % k = 0)) = (true : Bool) := by
            have : (m + 0 + 1) % k = 0 := by
              have : m + 0 + 1 = k := by omega
              rw [this, Nat.mod_self]
            simp [this]
          rw [show ((fun i => decide ((m + i + 1) % k = 0)) ∘ Nat.succ)
              = fun i => decide ((m + Nat.succ i + 1) % k = 0) from rfl]
          congr 1
          · simp [hhead]
          · exact List.map_congr_left fun i _ => by rw [harg i]
        · intro d hd
          rw [hrun2, hs2, deliveries_cons] at hd
          rcases List.mem_append.mp hd with hmem | hmem
          · simp at hmem
            rw [hmem]
            simp [← hm, hm1]
          · exact ih2 d hmem
        · rw [hrun2, hs2, deliveries_cons]
          have harg : m + (es.length + 1) = es.length + k := by omega
          simp only [List.length_cons, List.length_append, Option.toList_some,
            List.singleton_append, ih3]
          rw [harg, Nat.add_div_right _ hk]
          simp
        · rw [hrun1, ih4]
          have harg : m + List.length (e :: es) = es.length + k := by
            simp; omega
          rw [harg, Nat.add_mod_right]
          simp
        · rw [hrun1, ih5]
          have harg : m + List.length (e :: es) = es.length + k := by
            simp; omega
          rw [harg, Nat.add_mod_right]
          simp
      · obtain ⟨hs2, hs1⟩ := hstepfact.2 hcond
        have hm1 : m + 1 < k := by omega
        obtain ⟨ih1, ih2, ih3, ih4, ih5⟩ :=
          ih (c.push_operation e.1 e.2).1 (m + 1) (by rw [hs1])
            (by rw [hs1]; simp [hm]) hm1
        refine ⟨?_, ?_, ?_, ?_, ?_⟩
        · rw [hrun2, List.map_cons, hs2]
          simp only [List.length_cons]
          rw [List.range_succ_eq_map, List.map_cons, List.map_map, ih1]
          have harg : ∀ i : Nat, (m + 1 + i + 1) % k = (m + Nat.succ i + 1) % k := by
            intro i
            have h1 : m + 1 + i + 1 = m + Nat.succ i + 1 := by omega
            rw [h1]
          have hhead : (decide ((m + 0 + 1) % k = 0)) = (false : Bool) := by
            have h0 : (m + 0 + 1) % k = m + 1 := by
              have : m + 0 + 1 = m + 1 := by omega
              rw [this, Nat.mod_eq_of_lt hm1]
            simp [h0]
          rw [show ((fun i => decide ((m + i + 1) % k = 0)) ∘ Nat.succ)
              = fun i => decide ((m + Nat.succ i + 1) % k = 0) from rfl]
          congr 1
          · simp [hhead]
          · exact List.map_congr_left fun i _ => by rw [harg i]
        · intro d hd
          rw [hrun2, hs2, deliveries_cons] at hd
          simp only [Option.toList_none, List.nil_append] at hd
          exact ih2 d hd
        · rw [hrun2, hs2, deliveries_cons]
          simp only [Option.toList_none, List.nil_append, ih3]
          congr 1
          simp
          omega
        · rw [hrun1, ih4]
          have harg : m + 1 + es.length = m + List.length (e :: es) := by
            simp; omega
          rw [harg]
        · rw [hrun1, ih5]
          have harg : m + 1 + es.length = m + List.length (e :: es) := by
            simp; omega
          rw [harg]

/-- A fresh collector configured with a `CountThreshold` policy, as built
by `ZondCollection::new` with `Policy::on_count_operations`. -/
def countCollector (T : Type) (k : NonZeroUsize) (id : Nat) :
    ZondCollection T :=
  { id := id, operations := [], policy := Policy.on_count_operations k }

/-- Claim C1: with `CountThreshold(k)`, the `i`-th recorded event (1-based)
triggers a flush exactly when `i` is a multiple of `k`; every
policy-triggered batch holds exactly `k` events; the number of flushes
after `n` events is `n / k`; the counter and the buffer hold `n % k`
afterwards (so the counter is 0 right after each flush, which the last
conjunct states for a single `try_handle` step as well). -/
theorem claim_C1_count_threshold (T : Type) (k : NonZeroUsize) (id : Nat)
    (es : List (T × Nat)) :
    (((countCollector T k id).run es).2.map Option.isSome
        = (List.range es.length).map (fun i => decide ((i + 1) % k.val = 0)))
    ∧ (∀ d ∈ deliveries ((countCollector T k id).run es).2,
        d.2.length = k.val)
    ∧ (deliveries ((countCollector T k id).run es).2).length
        = es.length / k.val
    ∧ ((countCollector T k id).run es).1.policy
        = { inner := PolicyInner.OnCountOperations k.val (es.length % k.val) }
    ∧ ((countCollector T k id).run es).1.operations.length
        = es.length % k.val
    ∧ (∀ (c : ZondCollection T) (mx cur now : Nat),
        c.policy = { inner := PolicyInner.OnCountOperations mx cur } →
        (c.try_handle now).2.isSome = true →
        (c.try_handle now).1.policy
          = { inner := PolicyInner.OnCountOperations mx 0 }) := by
  have hk : 0 < k.val := Nat.pos_of_ne_zero k.val_ne_zero
  obtain ⟨h1, h2, h3, h4, h5⟩ := ZondCollection.run_count k.val hk es
    (countCollector T k id) 0 rfl rfl hk
  refine ⟨?_, h2, by simpa using h3, by simpa using h4, by simpa using h5, ?_⟩
  · rw [h1]
    exact List.map_congr_left fun i _ => by rw [Nat.zero_add]
  · intro c mx cur now hp hsome
    obtain ⟨cid, ops, pol⟩ := c
    cases hp
    by_cases hcond : mx - 1 = cur
    · simp [ZondCollection.try_handle, ZondCollection.handle, hcond]
    · simp [ZondCollection.try_handle, hcond] at hsome

/-- Witness for claim C1: with `k = 3` and four recorded events, the one
policy flush delivers a batch of exactly three events. -/
theorem claim_C1_count_threshold_witness :
    ((7 : Nat), [Operation.new (10 : Nat) 0, Operation.new 20 1,
        Operation.new 30 2]).2.length = (3 : Nat) :=
  (claim_C1_count_threshold Nat ⟨3, by decide⟩ 7
      [(10, 0), (20, 1), (30, 2), (40, 3)]).2.1
    (7, [Operation.new 10 0, Operation.new 20 1, Operation.new 30 2])
    (by decide)

/-- The example scenario: a `ZVec Nat` with `CountThreshold(3)` (as in the
crate documentation), with timestamps 0, 1, 2, ... for the successive
calls. -/
def scenario0 : ZVec Nat × Option (Delivery (ZVecOperation Nat)) :=
  ZVec.new (PolicyInner.OnCountOperations 3 0) 0 0

def scenario1 : ZVec Nat × Option (Delivery (ZVecOperation Nat)) :=
  scenario0.1.push 1 1

def scenario2 : ZVec Nat × Option (Delivery (ZVecOperation Nat)) :=
  scenario1.1.push 2 2

def scenario3 : ZVec Nat × Option (Delivery (ZVecOperation Nat)) :=
  scenario2.1.push 5 3

def scenario4 : ZVec Nat × Option (Delivery (ZVecOperation Nat)) :=
  scenario3.1.push 5 4

def scenario5 : ZVec Nat × Option (Delivery (ZVecOperation Nat)) :=
  scenario4.1.extend_from_within (RBound.Included 1) RBound.Unbounded 5

def scenario6 : ZVec Nat × Option (Delivery (ZVecOperation Nat)) :=
  scenario5.1.dedup 6

def scenarioDrop : List (Delivery (ZVecOperation Nat)) :=
  scenario6.1.dropRun 7

/-- Claim C6 counterexample: with `CountThreshold(3)` the batch
`[New, Push 1, Push 2]` is delivered already by the 2nd push (the 3rd
recorded event, since construction records `New`), and the 3rd push
(the first `push 5`) delivers nothing — refuting the claim that this
batch is delivered after the 3rd push. -/
theorem claim_C6_counterexample :
    scenario2.2 = some (0, [Operation.new ZVecOperation.New 0,
        Operation.new (ZVecOperation.Push 1) 1,
        Operation.new (ZVecOperation.Push 2) 2])
    ∧ scenario3.2 = none := by
  decide

/-- Claim C6 as amended: construction records `New`, so the batch
`[New, Push 1, Push 2]` is delivered after the 2nd push; the 3rd and 4th
pushes deliver nothing; `extend_from_within` completes the second batch of
three `[Push 5, Push 5, ExtendFromWithin]`; `dedup` delivers nothing; and
dropping the container records `Drop` and flushes the remaining buffered
events `[Dedup, Drop]`. -/
theorem claim_C6_amended :
    scenario0.2 = none
    ∧ scenario1.2 = none
    ∧ scenario2.2 = some (0, [Operation.new ZVecOperation.New 0,
        Operation.new (ZVecOperation.Push 1) 1,
        Operation.new (ZVecOperation.Push 2) 2])
    ∧ scenario3.2 = none
    ∧ scenario4.2 = none
    ∧ scenario5.2 = some (0, [Operation.new (ZVecOperation.Push 5) 3,
        Operation.new (ZVecOperation.Push 5) 4,
        Operation.new (ZVecOperation.ExtendFromWithin
          (RBound.Included 1) RBound.Unbounded) 5])
    ∧ scenario6.2 = none
    ∧ scenarioDrop = [(0, [Operation.new ZVecOperation.Dedup 6,
        Operation.new ZVecOperation.Drop 7])]
    ∧ scenario6.1.inner = [1, 2, 5, 2, 5] := by
  refine ⟨by decide, by decide, by decide, by decide, by decide, by decide,
    by decide, by decide, by decide⟩

end Zond
